import Mathlib

/-!
# Token cache and authenticating transport (client-go `auth` plugin)

A shallow embedding of
`staging/src/k8s.io/client-go/plugin/pkg/client/auth/cache.go` and
`.../auth/external/external.go`, with the properties of the token cache and of
the round tripper proved over it.

Modelling conventions.
* A `time.Time` instant is an `Int`; `a.After(b)` is `b < a`.
* A Go `error` is `none` when nil, otherwise the message of its `Error()` method
  together with what `fmt` renders for it under the verb `%v`.
* An implementation of an interface (`TokenSource`, `http.RoundTripper`) is an
  arbitrary scripted object: what it answers at its `n`-th invocation, together
  with the number of invocations made so far.
* The package variable `timeNow` is read at most once per `TokenStore.Token`
  call; its reading is the `timeNow` argument of the call.
-/

namespace Auth

/-- A non-nil Go `error` value, by what can be observed of it: `Error` is the
message its `Error()` method returns, `rendered` is what `fmt` prints for it
under the verb `%v`, namely the output of its `Format` method when it implements
`fmt.Formatter`, and its message otherwise. -/
structure ErrorValue where
  Error : String
  rendered : String
deriving DecidableEq, Repr

/-- Go `error`: `none` is `nil`. -/
abbrev error := Option ErrorValue

/-- The call `errors.New(text)`: an error with message `text` and no `Format`
method, so `%v` renders its message. -/
def errors.New (text : String) : ErrorValue :=
  { Error := text, rendered := text }

/-- The call `fmt.Errorf(context + "%v", err)`, the one shape in which this code
uses `fmt.Errorf`: `errors.New` of the context followed by the `%v` rendering of
`err`. -/
def fmt.Errorf (context : String) (err : ErrorValue) : ErrorValue :=
  errors.New (context ++ err.rendered)

/-- Token groups the token string and expiration for caching (`cache.go`, `type Token`). -/
structure Token where
  Token : String
  ExpiresOn : Int
deriving DecidableEq, Repr

/-- Method `(*Token).isExpired`: `timeNow().After(t.ExpiresOn)`. -/
def Token.isExpired (t : Auth.Token) (timeNow : Int) : Bool :=
  decide (t.ExpiresOn < timeNow)

/-- An implementation of the `TokenSource` interface: `results n` is what its
`Token()` method returns at invocation number `n` (a Go pair `(*Token, error)`,
either component of which may be nil), `calls` how often it has been invoked. -/
structure TokenSource where
  results : Nat → Option Auth.Token × error
  calls : Nat

/-- Method `Token()` of a `TokenSource`: the scripted answer, and the source
after the invocation. -/
def TokenSource.Token (s : TokenSource) : (Option Auth.Token × error) × TokenSource :=
  (s.results s.calls, { s with calls := s.calls + 1 })

/-- Test double `mockTokenSource` of `cache_test.go`: the same pair every time. -/
def mockTokenSource (t : Option Auth.Token) (err : error) : TokenSource :=
  { results := fun _ => (t, err), calls := 0 }

/-- A `sync.Mutex`, as a held/free flag. -/
structure Mutex where
  locked : Bool
deriving DecidableEq, Repr

/-- The call `m.Lock()` in a sequential run: it returns with the mutex held when
the mutex was free, and never returns (`none`) when it was already held. -/
def Mutex.Lock (m : Mutex) : Option Mutex :=
  if m.locked then none else some { locked := true }

/-- The call `m.Unlock()` on a held mutex. -/
def Mutex.Unlock (_m : Mutex) : Mutex :=
  { locked := false }

/-- TokenStore is a simple token cache (`cache.go`, `type TokenStore`). -/
structure TokenStore where
  lock : Mutex
  token : Option Auth.Token
  source : TokenSource

/-- Constructor `newTokenStore`: `&TokenStore{source: source}`. -/
def newTokenStore (source : TokenSource) : TokenStore :=
  { lock := { locked := false }, token := none, source := source }

/-- Method `(*TokenStore).Token`. The result is `none` when the call never returns
(blocked on its own held lock), otherwise the returned `(string, error)` pair
and the store after the call. -/
def TokenStore.Token (t : TokenStore) (timeNow : Int) :
    Option ((String × error) × TokenStore) :=
  match t.lock.Lock with
  | none => none
  | some held =>
    let t : TokenStore := { t with lock := held }
    let out : (String × error) × TokenStore :=
      -- check for cached token
      match t.token.filter (fun c => !c.isExpired timeNow) with
      | some c => ((c.Token, none), t)
      | none =>
        -- fetch a new token
        let fetched := t.source.Token
        let t : TokenStore := { t with source := fetched.2 }
        match fetched.1.2 with
        | some err => (("", some (fmt.Errorf "could not fetch new token: " err)), t)
        | none =>
          match fetched.1.1 with
          | none => (("", some (errors.New "nil token returned by source")), t)
          | some token =>
            -- update cache
            ((token.Token, none), { t with token := some token })
    -- deferred Unlock
    some (out.1, { out.2 with lock := out.2.lock.Unlock })

/-- A run of consecutive `Token()` calls on one store, the clock reading
`times[i]` at call `i`: the values returned, in order, and the store at the end
(`none` when some call never returns). -/
def TokenStore.Tokens (t : TokenStore) (times : List Int) :
    Option (List (String × error) × TokenStore) :=
  times.foldl
    (fun acc timeNow =>
      match acc with
      | none => none
      | some (rets, t) =>
        match t.Token timeNow with
        | none => none
        | some (ret, t) => some (rets ++ [ret], t))
    (some ([], t))

/-- The credential returned by the most recent successful fetch (non-nil
credential, nil error) among the `n` source invocations numbered
`first, …, first + n - 1`; `none` when none of them succeeded. -/
def lastFetched (results : Nat → Option Auth.Token × error) (first : Nat) :
    Nat → Option Auth.Token
  | 0 => none
  | n + 1 =>
    match results (first + n) with
    | (some N, none) => some N
    | _ => lastFetched results first n

/-- The store after a `Token()` call that fetched: the lock is free as before,
the source has one invocation more, and the held credential is `held`. -/
def TokenStore.fetched (t : TokenStore) (held : Option Auth.Token) : TokenStore :=
  { lock := t.lock, token := held,
    source := { results := t.source.results, calls := t.source.calls + 1 } }

end Auth

namespace External
open Auth

/-- Builtin `len` of a Go string: its length in bytes. -/
def len (s : String) : Nat := s.utf8ByteSize

/-- An `http.Header`, a Go `map[string][]string`, as the list of its entries;
the keys of a map are pairwise distinct. -/
structure Header where
  entries : List (String × List String)
deriving DecidableEq, Repr

/-- Map read `h[key]`: `none` when the key is absent. -/
def Header.lookup (h : Header) (key : String) : Option (List String) :=
  h.entries.lookup key

/-- Map write `h[key] = values`. -/
def Header.store (h : Header) (key : String) (values : List String) : Header :=
  { entries := (key, values) :: h.entries.filter (fun kv => kv.1 != key) }

/-- Method `Header.Get` of `net/http` for a key already in canonical MIME form, as
the literal `"Authorization"` is: the first value stored under the key, or the
empty string when there is none. -/
def Header.Get (h : Header) (key : String) : String :=
  match h.lookup key with
  | some (v :: _) => v
  | _ => ""

/-- Method `Header.Set` of `net/http` for a key already in canonical MIME form:
the key is bound to the one-element sequence `[value]`. -/
def Header.Set (h : Header) (key value : String) : Header :=
  h.store key [value]

/-- The header maps in memory. A map is a reference: `maps a` is the content of
the map at address `a`, and the addresses from `next` on are unused. -/
structure Heap where
  maps : Nat → Header
  next : Nat

/-- Allocation `make(http.Header, n)`: the address of a fresh empty map. -/
def Heap.make (m : Heap) : Nat × Heap :=
  (m.next, { maps := fun a => if a = m.next then { entries := [] } else m.maps a,
             next := m.next + 1 })

/-- Replacement of the content of the map at address `a`. -/
def Heap.write (m : Heap) (a : Nat) (h : Header) : Heap :=
  { m with maps := fun b => if b = a then h else m.maps b }

/-- An `http.Request`: the scalar fields the code copies as they are, and the
reference to its header map. -/
structure Request where
  Method : String
  URL : String
  Host : String
  Body : String
  Header : Nat
deriving DecidableEq, Repr

/-- An `http.Response`. -/
structure Response where
  StatusCode : Nat
  Body : String
deriving DecidableEq, Repr

/-- An implementation of `http.RoundTripper` that keeps to the contract of not
modifying the request: `respond n req hdr` is what it returns at invocation
number `n` for the request `req` whose header map reads `hdr`; `received` lists
the requests it was given so far, with their headers as they were then. -/
structure RoundTripper where
  respond : Nat → Request → Header → Option Response × error
  received : List (Request × Header)

/-- Method `RoundTrip` of a wrapped `http.RoundTripper`. -/
def RoundTripper.RoundTrip (rt : RoundTripper) (req : Request) (mem : Heap) :
    (Option Response × error) × RoundTripper :=
  (rt.respond rt.received.length req (mem.maps req.Header),
    { rt with received := rt.received ++ [(req, mem.maps req.Header)] })

/-- How a call ends: it returns a value, or the goroutine panics. -/
inductive Outcome (α : Type) where
  | returned (value : α)
  | panicked (msg : String)
deriving DecidableEq, Repr

/-- The run-time error raised by a method call on a nil interface and by a field
read through a nil pointer. -/
def nilDereference : String :=
  "runtime error: invalid memory address or nil pointer dereference"

/-- The provider `externalAuthProvider`; its `tokenSource` is an interface value
and may be nil. -/
structure externalAuthProvider where
  tokenSource : Option TokenSource

/-- The round tripper `externalAuthRoundTripper`. -/
structure externalAuthRoundTripper where
  tokenSource : Option TokenSource
  roundTripper : RoundTripper

/-- Constructor `newExternalAuthProvider`: `&externalAuthProvider{}` and a nil error. -/
def newExternalAuthProvider (_clusterAddress : String) (_cfg : List (String × String)) :
    externalAuthProvider × error :=
  ({ tokenSource := none }, none)

/-- Method `WrapTransport`. -/
def externalAuthProvider.WrapTransport (e : externalAuthProvider) (rt : RoundTripper) :
    externalAuthRoundTripper :=
  { tokenSource := e.tokenSource, roundTripper := rt }

/-- Method `Login`. -/
def externalAuthProvider.Login (_e : externalAuthProvider) : error :=
  some (errors.New "not implemented")

/-- Method `WrappedRoundTripper`. -/
def externalAuthRoundTripper.WrappedRoundTripper (r : externalAuthRoundTripper) :
    RoundTripper :=
  r.roundTripper

/-- Method `(*externalAuthRoundTripper).RoundTrip`: how the call ends, the round
tripper (its token source and wrapped transport) after the call, and the header
maps in memory after the call. The `glog.Errorf` line only logs and is left out. -/
def externalAuthRoundTripper.RoundTrip (r : externalAuthRoundTripper) (req : Request)
    (mem : Heap) : Outcome (Option Response × error) × externalAuthRoundTripper × Heap :=
  if len ((mem.maps req.Header).Get "Authorization") != 0 then
    let sent := r.roundTripper.RoundTrip req mem
    (.returned sent.1, { r with roundTripper := sent.2 }, mem)
  else
    match r.tokenSource with
    | none => (.panicked nilDereference, r, mem)
    | some source =>
      let fetched := source.Token
      let r : externalAuthRoundTripper := { r with tokenSource := some fetched.2 }
      match fetched.1.2 with
      | some err =>
        (.returned (none, some (fmt.Errorf "acquiring a token for authorization header: " err)),
          r, mem)
      | none =>
        -- clone Header to avoid modifying on original request
        let made := mem.make
        let req2 : Request := { req with Header := made.1 }
        let mem2 : Heap :=
          (mem.maps req.Header).entries.foldl
            (fun m ks => m.write req2.Header ((m.maps req2.Header).store ks.1 ks.2))
            made.2
        match fetched.1.1 with
        | none => (.panicked nilDereference, r, mem2)
        | some token =>
          let mem3 : Heap :=
            mem2.write req2.Header
              ((mem2.maps req2.Header).Set "Authorization" ("Bearer " ++ token.Token))
          let sent := r.roundTripper.RoundTrip req2 mem3
          (.returned sent.1, { r with roundTripper := sent.2 }, mem3)

/-- A wrapped transport that answers every request with `200 ok`, for the
worked examples. -/
def exampleTransport : RoundTripper :=
  { respond := fun _ _ _ => (some { StatusCode := 200, Body := "ok" }, none), received := [] }

/-- A memory with two header maps, for the worked examples: at address 0 a map
without `Authorization`, at address 1 a map that binds `Authorization` to the
single empty string. -/
def exampleHeap : Heap :=
  { maps := fun a =>
      if a = 0 then { entries := [("Accept", ["text/plain", "text/html"]), ("X-Empty", [])] }
      else if a = 1 then { entries := [("Authorization", [""]), ("Accept", ["*/*"])] }
      else { entries := [] },
    next := 2 }

/-- A request whose header map is the one at address `a`, for the worked examples. -/
def exampleRequest (a : Nat) : Request :=
  { Method := "GET", URL := "/api/v1/pods", Host := "cluster.local", Body := "", Header := a }

end External

section CacheLemmas
open Auth

theorem Auth.TokenStore.Token_of_held (t : TokenStore) (timeNow : Int) (C : Auth.Token)
    (hfree : t.lock.locked = false) (hheld : t.token = some C)
    (hexp : C.isExpired timeNow = false) :
    t.Token timeNow = some ((C.Token, none), t) := by
  obtain ⟨⟨l⟩, tok, src⟩ := t
  simp only at hfree hheld
  subst hfree hheld
  simp [TokenStore.Token, Mutex.Lock, Mutex.Unlock, Option.filter, hexp]

theorem Auth.TokenStore.Token_of_miss (t : TokenStore) (timeNow : Int)
    (hfree : t.lock.locked = false)
    (hmiss : ∀ C, t.token = some C → C.isExpired timeNow = true) :
    t.Token timeNow =
      some (match (t.source.results t.source.calls).2 with
        | some err =>
          (("", some (fmt.Errorf "could not fetch new token: " err)), t.fetched t.token)
        | none =>
          match (t.source.results t.source.calls).1 with
          | none =>
            (("", some (errors.New "nil token returned by source")), t.fetched t.token)
          | some N => ((N.Token, none), t.fetched (some N))) := by
  obtain ⟨⟨l⟩, tok, src⟩ := t
  simp only at hfree hmiss
  subst hfree
  have hf : tok.filter (fun c => !c.isExpired timeNow) = none := by
    cases tok with
    | none => rfl
    | some c => simp [Option.filter, hmiss c rfl]
  rcases hres : src.results src.calls with ⟨_ | N, _ | e⟩ <;>
    simp [TokenStore.Token, Mutex.Lock, Mutex.Unlock, hf, TokenSource.Token, hres,
      Auth.TokenStore.fetched]

theorem Auth.TokenStore.Token_of_miss_error (t : TokenStore) (timeNow : Int)
    (tok : Option Auth.Token) (e : ErrorValue) (hfree : t.lock.locked = false)
    (hmiss : ∀ C, t.token = some C → C.isExpired timeNow = true)
    (hsrc : t.source.results t.source.calls = (tok, some e)) :
    t.Token timeNow =
      some (("", some (fmt.Errorf "could not fetch new token: " e)), t.fetched t.token) := by
  rw [Auth.TokenStore.Token_of_miss t timeNow hfree hmiss, hsrc]

theorem Auth.TokenStore.Token_of_miss_nil (t : TokenStore) (timeNow : Int)
    (hfree : t.lock.locked = false)
    (hmiss : ∀ C, t.token = some C → C.isExpired timeNow = true)
    (hsrc : t.source.results t.source.calls = (none, none)) :
    t.Token timeNow =
      some (("", some (errors.New "nil token returned by source")), t.fetched t.token) := by
  rw [Auth.TokenStore.Token_of_miss t timeNow hfree hmiss, hsrc]

theorem Auth.TokenStore.Token_of_miss_fresh (t : TokenStore) (timeNow : Int)
    (N : Auth.Token) (hfree : t.lock.locked = false)
    (hmiss : ∀ C, t.token = some C → C.isExpired timeNow = true)
    (hsrc : t.source.results t.source.calls = (some N, none)) :
    t.Token timeNow = some ((N.Token, none), t.fetched (some N)) := by
  rw [Auth.TokenStore.Token_of_miss t timeNow hfree hmiss, hsrc]

theorem Auth.TokenStore.Token_isSome (t : TokenStore) (timeNow : Int)
    (hfree : t.lock.locked = false) :
    ∃ ret t', t.Token timeNow = some (ret, t') := by
  obtain ⟨⟨l⟩, tok, src⟩ := t
  simp only at hfree
  subst hfree
  simp [TokenStore.Token, Mutex.Lock]

theorem Auth.TokenStore.Token_lock_free (t t' : TokenStore) (timeNow : Int)
    (ret : String × error) (h : t.Token timeNow = some (ret, t')) :
    t'.lock.locked = false := by
  unfold TokenStore.Token at h
  split at h
  · exact absurd h (by simp)
  · simp only [Option.some.injEq, Prod.mk.injEq] at h
    rw [← h.2]
    rfl

theorem Auth.Token.isExpired_eq_true (C : Auth.Token) (timeNow : Int) :
    C.isExpired timeNow = true ↔ C.ExpiresOn < timeNow := by
  simp [Auth.Token.isExpired]

theorem Auth.Token.isExpired_eq_false (C : Auth.Token) (timeNow : Int) :
    C.isExpired timeNow = false ↔ timeNow ≤ C.ExpiresOn := by
  simp [Auth.Token.isExpired]

theorem Auth.TokenStore.Token_miss_calls (t : TokenStore) (timeNow : Int)
    (hfree : t.lock.locked = false)
    (hmiss : ∀ C, t.token = some C → C.isExpired timeNow = true) :
    ∃ ret t', t.Token timeNow = some (ret, t') ∧
      t'.source.calls = t.source.calls + 1 ∧ t'.source.results = t.source.results := by
  rw [Auth.TokenStore.Token_of_miss t timeNow hfree hmiss]
  rcases t.source.results t.source.calls with ⟨_ | N, _ | e⟩ <;>
    exact ⟨_, _, rfl, rfl, rfl⟩

/-- Every returning `Token()` call is a cache hit, which leaves the store alone,
or a fetch that invoked the source once. -/
theorem Auth.TokenStore.Token_cases (t t' : TokenStore) (timeNow : Int)
    (ret : String × error) (h : t.Token timeNow = some (ret, t')) :
    (∃ C, t.token = some C ∧ C.isExpired timeNow = false ∧
        ret = (C.Token, none) ∧ t' = t) ∨
    ((∀ C, t.token = some C → C.isExpired timeNow = true) ∧
      ((∃ e, (t.source.results t.source.calls).2 = some e ∧
          ret = ("", some (fmt.Errorf "could not fetch new token: " e)) ∧
          t' = t.fetched t.token) ∨
       (t.source.results t.source.calls = (none, none) ∧
          ret = ("", some (errors.New "nil token returned by source")) ∧
          t' = t.fetched t.token) ∨
       (∃ N, t.source.results t.source.calls = (some N, none) ∧
          ret = (N.Token, none) ∧ t' = t.fetched (some N)))) := by
  have hfree : t.lock.locked = false := by
    cases hl : t.lock.locked with
    | false => rfl
    | true => simp [TokenStore.Token, Mutex.Lock, hl] at h
  by_cases hhit : ∃ C, t.token = some C ∧ C.isExpired timeNow = false
  · obtain ⟨C, hC, hexp⟩ := hhit
    rw [Auth.TokenStore.Token_of_held t timeNow C hfree hC hexp] at h
    simp only [Option.some.injEq, Prod.mk.injEq] at h
    exact Or.inl ⟨C, hC, hexp, h.1.symm, h.2.symm⟩
  · have hmiss : ∀ C, t.token = some C → C.isExpired timeNow = true := by
      intro C hC
      cases hx : C.isExpired timeNow with
      | true => rfl
      | false => exact absurd ⟨C, hC, hx⟩ hhit
    refine Or.inr ⟨hmiss, ?_⟩
    rcases hres : t.source.results t.source.calls with ⟨tok, _ | e⟩
    · cases tok with
      | none =>
        rw [Auth.TokenStore.Token_of_miss_nil t timeNow hfree hmiss hres] at h
        simp only [Option.some.injEq, Prod.mk.injEq] at h
        exact Or.inr (Or.inl ⟨rfl, h.1.symm, h.2.symm⟩)
      | some N =>
        rw [Auth.TokenStore.Token_of_miss_fresh t timeNow N hfree hmiss hres] at h
        simp only [Option.some.injEq, Prod.mk.injEq] at h
        exact Or.inr (Or.inr ⟨N, rfl, h.1.symm, h.2.symm⟩)
    · rw [Auth.TokenStore.Token_of_miss_error t timeNow tok e hfree hmiss hres] at h
      simp only [Option.some.injEq, Prod.mk.injEq] at h
      exact Or.inl ⟨e, rfl, h.1.symm, h.2.symm⟩

theorem Auth.TokenStore.Tokens_snoc (t : TokenStore) (times : List Int) (timeNow : Int) :
    t.Tokens (times ++ [timeNow]) =
      match t.Tokens times with
      | none => none
      | some (rets, t') =>
        match t'.Token timeNow with
        | none => none
        | some (ret, t'') => some (rets ++ [ret], t'') := by
  simp only [TokenStore.Tokens, List.foldl_append, List.foldl_cons, List.foldl_nil]

theorem Auth.lastFetched_succ_of_success (results : Nat → Option Auth.Token × error)
    (first n : Nat) (N : Auth.Token) (h : results (first + n) = (some N, none)) :
    lastFetched results first (n + 1) = some N := by
  simp only [lastFetched, h]

theorem Auth.lastFetched_succ_of_failure (results : Nat → Option Auth.Token × error)
    (first n : Nat) (h : ∀ N, results (first + n) ≠ (some N, none)) :
    lastFetched results first (n + 1) = lastFetched results first n := by
  rcases hres : results (first + n) with ⟨_ | N, _ | e⟩
  · simp only [lastFetched, hres]
  · simp only [lastFetched, hres]
  · exact absurd hres (h N)
  · simp only [lastFetched, hres]

/-- Reading of `lastFetched`: it is `some N` exactly when some invocation among
the `n` delivered `N` successfully and no later one among them succeeded. -/
theorem Auth.lastFetched_eq_some_iff (results : Nat → Option Auth.Token × error)
    (first n : Nat) (N : Auth.Token) :
    lastFetched results first n = some N ↔
      ∃ i, i < n ∧ results (first + i) = (some N, none) ∧
        ∀ j, i < j → j < n → ∀ M, results (first + j) ≠ (some M, none) := by
  induction n with
  | zero => simp [lastFetched]
  | succ n ih =>
    by_cases hs : ∃ M, results (first + n) = (some M, none)
    · obtain ⟨M, hM⟩ := hs
      rw [Auth.lastFetched_succ_of_success results first n M hM]
      constructor
      · intro h
        cases h
        exact ⟨n, Nat.lt_succ_self n, hM, fun j hj hj' => by omega⟩
      · rintro ⟨i, hi, hres, hlater⟩
        rcases Nat.lt_or_ge i n with hlt | hge
        · exact absurd hM (hlater n hlt (Nat.lt_succ_self n) M)
        · have hin : i = n := by omega
          subst hin
          rw [hM] at hres
          simp only [Prod.mk.injEq, and_true] at hres
          exact hres
    · have hf : ∀ M, results (first + n) ≠ (some M, none) := fun M hM => hs ⟨M, hM⟩
      rw [Auth.lastFetched_succ_of_failure results first n hf, ih]
      constructor
      · rintro ⟨i, hi, hres, hlater⟩
        refine ⟨i, Nat.lt_succ_of_lt hi, hres, fun j hj hj' M => ?_⟩
        rcases Nat.lt_or_ge j n with hlt | hge
        · exact hlater j hj hlt M
        · have hjn : j = n := by omega
          subst hjn
          exact hf M
      · rintro ⟨i, hi, hres, hlater⟩
        have hin : i < n := by
          rcases Nat.lt_or_ge i n with hlt | hge
          · exact hlt
          · have hin : i = n := by omega
            subst hin
            exact absurd hres (hf N)
        exact ⟨i, hin, hres, fun j hj hj' => hlater j hj (Nat.lt_succ_of_lt hj')⟩

/-- Reading of `lastFetched`: it is `none` exactly when none of the `n`
invocations succeeded. -/
theorem Auth.lastFetched_eq_none_iff (results : Nat → Option Auth.Token × error)
    (first n : Nat) :
    lastFetched results first n = none ↔
      ∀ i, i < n → ∀ M, results (first + i) ≠ (some M, none) := by
  induction n with
  | zero => simp [lastFetched]
  | succ n ih =>
    by_cases hs : ∃ M, results (first + n) = (some M, none)
    · obtain ⟨M, hM⟩ := hs
      rw [Auth.lastFetched_succ_of_success results first n M hM]
      constructor
      · intro h
        exact absurd h (by simp)
      · intro h
        exact absurd hM (h n (Nat.lt_succ_self n) M)
    · have hf : ∀ M, results (first + n) ≠ (some M, none) := fun M hM => hs ⟨M, hM⟩
      rw [Auth.lastFetched_succ_of_failure results first n hf, ih]
      constructor
      · intro h i hi M
        rcases Nat.lt_or_ge i n with hlt | hge
        · exact h i hlt M
        · have hin : i = n := by omega
          subst hin
          exact hf M
      · intro h i hi M
        exact h i (Nat.lt_succ_of_lt hi) M

/-- Invariant of a run of `Token()` calls on a store made by `newTokenStore`:
every call returns, the lock is free between calls, the source is the given one
after some number `k` of invocations, the held credential is the last one
fetched successfully, and a successful last call returned its token string. -/
theorem Auth.TokenStore.Tokens_invariant (source : TokenSource) (times : List Int) :
    ∃ rets t' k, (newTokenStore source).Tokens times = some (rets, t') ∧
      rets.length = times.length ∧ t'.lock.locked = false ∧
      t'.source.results = source.results ∧ t'.source.calls = source.calls + k ∧
      t'.token = lastFetched source.results source.calls k ∧
      ∀ s, rets.getLast? = some (s, none) → ∃ N, t'.token = some N ∧ N.Token = s := by
  induction times using List.reverseRecOn with
  | nil =>
    exact ⟨[], newTokenStore source, 0, rfl, rfl, rfl, rfl, rfl, rfl, fun s h => by simp at h⟩
  | append_singleton times timeNow ih =>
    obtain ⟨rets, t', k, hrun, hlen, hfree, hres, hcalls, htok, -⟩ := ih
    obtain ⟨ret, t'', hcall⟩ := Auth.TokenStore.Token_isSome t' timeNow hfree
    have hrun' : (newTokenStore source).Tokens (times ++ [timeNow])
        = some (rets ++ [ret], t'') := by
      rw [Auth.TokenStore.Tokens_snoc, hrun]
      simp only [hcall]
    have hlen' : (rets ++ [ret]).length = (times ++ [timeNow]).length := by
      simp [hlen]
    have hfree' := Auth.TokenStore.Token_lock_free t' t'' timeNow ret hcall
    have hlast : (rets ++ [ret]).getLast? = some ret := by simp
    have hat : t'.source.results t'.source.calls = source.results (source.calls + k) := by
      rw [hres, hcalls]
    rcases Auth.TokenStore.Token_cases t' t'' timeNow ret hcall with
      ⟨C, hC, -, hret, ht'⟩ | ⟨-, ⟨e, he, hret, ht'⟩ | ⟨hnil, hret, ht'⟩ | ⟨N, hN, hret, ht'⟩⟩
    · subst ht'
      refine ⟨_, _, k, hrun', hlen', hfree', hres, hcalls, htok, fun s hs => ?_⟩
      rw [hlast, hret] at hs
      simp only [Option.some.injEq, Prod.mk.injEq, and_true] at hs
      exact ⟨C, hC, hs⟩
    · subst ht'
      refine ⟨_, _, k + 1, hrun', hlen', hfree', hres, ?_, ?_, fun s hs => ?_⟩
      · show t'.source.calls + 1 = source.calls + (k + 1)
        omega
      · show t'.token = _
        rw [Auth.lastFetched_succ_of_failure source.results source.calls k, htok]
        intro M hM
        rw [hat, hM] at he
        simp at he
      · rw [hlast, hret] at hs
        simp at hs
    · subst ht'
      refine ⟨_, _, k + 1, hrun', hlen', hfree', hres, ?_, ?_, fun s hs => ?_⟩
      · show t'.source.calls + 1 = source.calls + (k + 1)
        omega
      · show t'.token = _
        rw [Auth.lastFetched_succ_of_failure source.results source.calls k, htok]
        intro M hM
        rw [hat, hM] at hnil
        simp at hnil
      · rw [hlast, hret] at hs
        simp at hs
    · subst ht'
      refine ⟨_, _, k + 1, hrun', hlen', hfree', hres, ?_, ?_, fun s hs => ?_⟩
      · show t'.source.calls + 1 = source.calls + (k + 1)
        omega
      · show some N = _
        rw [Auth.lastFetched_succ_of_success source.results source.calls k N (hat ▸ hN)]
      · rw [hlast, hret] at hs
        simp only [Option.some.injEq, Prod.mk.injEq, and_true] at hs
        exact ⟨N, rfl, hs⟩

end CacheLemmas

section CacheClaims
open Auth

/-- C1 (cache hit). A store with a free lock that holds a credential `C` whose
`ExpiresOn` is strictly after the clock reading returns `(C.Token, nil)`, whatever
its token source is; the source is not invoked and the store, in particular the
held credential, is left as it was. -/
theorem Auth.TokenStore.Token_cache_hit (t : TokenStore) (timeNow : Int)
    (C : Auth.Token) (hfree : t.lock.locked = false) (hheld : t.token = some C)
    (hexp : timeNow < C.ExpiresOn) :
    ∃ t', t.Token timeNow = some ((C.Token, none), t') ∧
      t'.source.calls = t.source.calls ∧ t'.token = some C ∧ t' = t := by
  refine ⟨t, ?_, rfl, hheld, rfl⟩
  exact Auth.TokenStore.Token_of_held t timeNow C hfree hheld
    ((Auth.Token.isExpired_eq_false C timeNow).2 (le_of_lt hexp))

/-- Witness for C1: the test case "returns cached token when not expired"
(clock 22:00, held credential expiring 23:30, in minutes of the day). -/
theorem Auth.TokenStore.Token_cache_hit_witness :
    ∃ t', TokenStore.Token
        { lock := { locked := false },
          token := some { Token := "mock-unexpired-token-string", ExpiresOn := 1410 },
          source := mockTokenSource
            (some { Token := "mock-expired-token-string", ExpiresOn := 1290 }) none }
        1320 = some (("mock-unexpired-token-string", none), t') ∧
      t'.source.calls = 0 ∧
      t'.token = some { Token := "mock-unexpired-token-string", ExpiresOn := 1410 } ∧
      t' = { lock := { locked := false },
             token := some { Token := "mock-unexpired-token-string", ExpiresOn := 1410 },
             source := mockTokenSource
               (some { Token := "mock-expired-token-string", ExpiresOn := 1290 }) none } :=
  Auth.TokenStore.Token_cache_hit
    { lock := { locked := false },
      token := some { Token := "mock-unexpired-token-string", ExpiresOn := 1410 },
      source := mockTokenSource
        (some { Token := "mock-expired-token-string", ExpiresOn := 1290 }) none }
    1320 { Token := "mock-unexpired-token-string", ExpiresOn := 1410 } rfl rfl (by decide)

/-- C2 (refresh on miss or expiry). A store with a free lock that holds no
credential, or one whose `ExpiresOn` is strictly before the clock reading, and
whose source answers its next invocation with a non-nil credential `N` and a nil
error: `Token()` invokes the source exactly once, returns `(N.Token, nil)` and
leaves `N` as the held credential. -/
theorem Auth.TokenStore.Token_refresh (t : TokenStore) (timeNow : Int) (N : Auth.Token)
    (hfree : t.lock.locked = false)
    (hmiss : t.token = none ∨ ∃ C, t.token = some C ∧ C.ExpiresOn < timeNow)
    (hsrc : t.source.results t.source.calls = (some N, none)) :
    ∃ t', t.Token timeNow = some ((N.Token, none), t') ∧
      t'.source.calls = t.source.calls + 1 ∧
      t'.source.results = t.source.results ∧ t'.token = some N := by
  have hm : ∀ C, t.token = some C → C.isExpired timeNow = true := by
    intro C hC
    rcases hmiss with h | ⟨D, hD, hlt⟩
    · rw [h] at hC; exact absurd hC (by simp)
    · rw [hD] at hC
      cases hC
      exact (Auth.Token.isExpired_eq_true _ timeNow).2 hlt
  rw [Auth.TokenStore.Token_of_miss_fresh t timeNow N hfree hm hsrc]
  exact ⟨_, rfl, rfl, rfl, rfl⟩

/-- Witness for C2: the test case "returns new token from storage when expired". -/
theorem Auth.TokenStore.Token_refresh_witness :
    ∃ t', TokenStore.Token
        { lock := { locked := false },
          token := some { Token := "mock-expired-token-string", ExpiresOn := 1290 },
          source := mockTokenSource
            (some { Token := "mock-unexpired-token-string", ExpiresOn := 1410 }) none }
        1320 = some (("mock-unexpired-token-string", none), t') ∧
      t'.source.calls = 0 + 1 ∧
      t'.source.results = (mockTokenSource
            (some { Token := "mock-unexpired-token-string", ExpiresOn := 1410 }) none).results ∧
      t'.token = some { Token := "mock-unexpired-token-string", ExpiresOn := 1410 } :=
  Auth.TokenStore.Token_refresh
    { lock := { locked := false },
      token := some { Token := "mock-expired-token-string", ExpiresOn := 1290 },
      source := mockTokenSource
        (some { Token := "mock-unexpired-token-string", ExpiresOn := 1410 }) none }
    1320 { Token := "mock-unexpired-token-string", ExpiresOn := 1410 } rfl
    (Or.inr ⟨{ Token := "mock-expired-token-string", ExpiresOn := 1290 }, rfl, by decide⟩) rfl

/-- Counterexample to C3 as stated: with the clock at 10, a held credential
expiring at exactly 10 and a source ready to deliver a fresh credential, `Token()`
returns the held token string and does not invoke the source. -/
theorem Auth.TokenStore.Token_boundary_counterexample :
    (TokenStore.mk { locked := false } (some { Token := "held", ExpiresOn := 10 })
        (mockTokenSource (some { Token := "fresh", ExpiresOn := 20 }) none)).token
      = some { Token := "held", ExpiresOn := 10 } ∧
    (Auth.Token.mk "held" 10).ExpiresOn = 10 ∧
    (mockTokenSource (some { Token := "fresh", ExpiresOn := 20 }) none).results 0
      = (some { Token := "fresh", ExpiresOn := 20 }, none) ∧
    ((TokenStore.mk { locked := false } (some { Token := "held", ExpiresOn := 10 })
        (mockTokenSource (some { Token := "fresh", ExpiresOn := 20 }) none)).Token 10).map
      (fun r => (r.1, r.2.source.calls)) = some (("held", none), 0) ∧
    ¬ ∃ t', (TokenStore.mk { locked := false } (some { Token := "held", ExpiresOn := 10 })
        (mockTokenSource (some { Token := "fresh", ExpiresOn := 20 }) none)).Token 10
          = some (((Auth.Token.mk "fresh" 20).Token, none), t') ∧
        t'.source.calls = 0 + 1 := by
  refine ⟨rfl, rfl, rfl, by decide, ?_⟩
  rintro ⟨t', h, -⟩
  rw [Auth.TokenStore.Token_of_held _ 10 { Token := "held", ExpiresOn := 10 } rfl rfl
    (by decide)] at h
  simp at h

/-- C3, amended. A held credential whose `ExpiresOn` equals the clock reading is
treated as unexpired: `Token()` returns the held credential's token string with a
nil error, does not invoke the source, and keeps the credential. -/
theorem Auth.TokenStore.Token_boundary_unexpired (t : TokenStore) (timeNow : Int)
    (C : Auth.Token) (hfree : t.lock.locked = false) (hheld : t.token = some C)
    (heq : C.ExpiresOn = timeNow) :
    C.isExpired timeNow = false ∧
    ∃ t', t.Token timeNow = some ((C.Token, none), t') ∧
      t'.source.calls = t.source.calls ∧ t'.token = some C := by
  have hexp : C.isExpired timeNow = false :=
    (Auth.Token.isExpired_eq_false C timeNow).2 (le_of_eq heq.symm)
  exact ⟨hexp, t, Auth.TokenStore.Token_of_held t timeNow C hfree hheld hexp, rfl, hheld⟩

/-- Witness for the amended C3. -/
theorem Auth.TokenStore.Token_boundary_unexpired_witness :
    (Auth.Token.mk "held" 10).isExpired 10 = false ∧
    ∃ t', (TokenStore.mk { locked := false } (some { Token := "held", ExpiresOn := 10 })
        (mockTokenSource (some { Token := "fresh", ExpiresOn := 20 }) none)).Token 10
          = some (((Auth.Token.mk "held" 10).Token, none), t') ∧
      t'.source.calls = 0 ∧ t'.token = some { Token := "held", ExpiresOn := 10 } :=
  Auth.TokenStore.Token_boundary_unexpired
    (TokenStore.mk { locked := false } (some { Token := "held", ExpiresOn := 10 })
      (mockTokenSource (some { Token := "fresh", ExpiresOn := 20 }) none))
    10 { Token := "held", ExpiresOn := 10 } rfl rfl rfl

/-- Counterexample to C4 as stated: the source fails with an error whose message
is `plain` and which implements `fmt.Formatter`, rendering as `formatted` under
`%v`. The error `Token()` returns has the message
`could not fetch new token: formatted`, not the context followed by the message
of the source error. -/
theorem Auth.TokenStore.Token_source_error_counterexample :
    (ErrorValue.mk "plain" "formatted").Error = "plain" ∧
    ((TokenStore.mk { locked := false }
        (some { Token := "mock-expired-token-string", ExpiresOn := 1290 })
        (mockTokenSource none (some { Error := "plain", rendered := "formatted" }))).Token
        1320).map (fun out => (out.1.1, out.1.2.map (fun err => err.Error)))
      = some ("", some "could not fetch new token: formatted") ∧
    "could not fetch new token: formatted" ≠
      "could not fetch new token: " ++ (ErrorValue.mk "plain" "formatted").Error := by
  refine ⟨rfl, by decide, by decide⟩

/-- C4, amended (source failure is wrapped and atomic). A store with a free lock
and no unexpired held credential whose source answers its next invocation with a
non-nil error `e` (whatever credential comes with it): `Token()` returns the
empty string and an error whose message is exactly `"could not fetch new token: "`
followed by the `%v` rendering of `e`, which is the message of `e` whenever `e`
renders as its message (it does not implement `fmt.Formatter`). The source has
been invoked once, the held credential is what it was, and a following call at
any clock reading not earlier than this one invokes the source again. -/
theorem Auth.TokenStore.Token_source_error (t : TokenStore) (timeNow : Int)
    (tok : Option Auth.Token) (e : ErrorValue) (hfree : t.lock.locked = false)
    (hmiss : ∀ C, t.token = some C → C.isExpired timeNow = true)
    (hsrc : t.source.results t.source.calls = (tok, some e)) :
    ∃ err t', t.Token timeNow = some (("", some err), t') ∧
      err.Error = "could not fetch new token: " ++ e.rendered ∧
      (e.rendered = e.Error → err.Error = "could not fetch new token: " ++ e.Error) ∧
      t'.token = t.token ∧ t'.source.calls = t.source.calls + 1 ∧
      ∀ later : Int, timeNow ≤ later →
        ∃ ret t'', t'.Token later = some (ret, t'') ∧
          t''.source.calls = t.source.calls + 2 := by
  rw [Auth.TokenStore.Token_of_miss_error t timeNow tok e hfree hmiss hsrc]
  refine ⟨_, _, rfl, rfl, ?_, rfl, rfl, ?_⟩
  · intro hplain
    show "could not fetch new token: " ++ e.rendered = _
    rw [hplain]
  · intro later hle
    have hmiss' : ∀ C, t.token = some C → C.isExpired later = true := fun C hC =>
      (Auth.Token.isExpired_eq_true C later).2
        (lt_of_lt_of_le ((Auth.Token.isExpired_eq_true C timeNow).1 (hmiss C hC)) hle)
    obtain ⟨ret, t'', h, hc, -⟩ := Auth.TokenStore.Token_miss_calls
      (t.fetched t.token) later hfree hmiss'
    exact ⟨ret, t'', h, hc⟩

/-- Witness for the amended C4: the test case "returns errors fetching new token
from storage", whose source error is `errors.New("token store error")`. -/
theorem Auth.TokenStore.Token_source_error_witness :
    ∃ err t', (TokenStore.mk { locked := false }
        (some { Token := "mock-expired-token-string", ExpiresOn := 1290 })
        (mockTokenSource none (some (errors.New "token store error")))).Token 1320
          = some (("", some err), t') ∧
      err.Error = "could not fetch new token: " ++ (errors.New "token store error").rendered ∧
      ((errors.New "token store error").rendered = (errors.New "token store error").Error →
        err.Error = "could not fetch new token: " ++ (errors.New "token store error").Error) ∧
      t'.token = some { Token := "mock-expired-token-string", ExpiresOn := 1290 } ∧
      t'.source.calls = 0 + 1 ∧
      ∀ later : Int, 1320 ≤ later →
        ∃ ret t'', t'.Token later = some (ret, t'') ∧ t''.source.calls = 0 + 2 :=
  Auth.TokenStore.Token_source_error
    (TokenStore.mk { locked := false }
      (some { Token := "mock-expired-token-string", ExpiresOn := 1290 })
      (mockTokenSource none (some (errors.New "token store error"))))
    1320 none (errors.New "token store error") rfl
    (fun C hC => by cases hC; decide) rfl

/-- C5 (nil credential is a distinct error). A store with a free lock and no
unexpired held credential whose source answers its next invocation with a nil
credential and a nil error: `Token()` returns the empty string and the error
`errors.New("nil token returned by source")`, whose message is exactly that
text, and the held credential is what it was. -/
theorem Auth.TokenStore.Token_nil_credential (t : TokenStore) (timeNow : Int)
    (hfree : t.lock.locked = false)
    (hmiss : ∀ C, t.token = some C → C.isExpired timeNow = true)
    (hsrc : t.source.results t.source.calls = (none, none)) :
    ∃ t', t.Token timeNow =
        some (("", some (errors.New "nil token returned by source")), t') ∧
      (errors.New "nil token returned by source").Error = "nil token returned by source" ∧
      t'.token = t.token ∧ t'.source.calls = t.source.calls + 1 := by
  rw [Auth.TokenStore.Token_of_miss_nil t timeNow hfree hmiss hsrc]
  exact ⟨_, rfl, rfl, rfl, rfl⟩

/-- Witness for C5: the test case "returns error when storage returns no token". -/
theorem Auth.TokenStore.Token_nil_credential_witness :
    ∃ t', (TokenStore.mk { locked := false }
        (some { Token := "mock-expired-token-string", ExpiresOn := 1290 })
        (mockTokenSource none none)).Token 1320
          = some (("", some (errors.New "nil token returned by source")), t') ∧
      (errors.New "nil token returned by source").Error = "nil token returned by source" ∧
      t'.token = some { Token := "mock-expired-token-string", ExpiresOn := 1290 } ∧
      t'.source.calls = 0 + 1 :=
  Auth.TokenStore.Token_nil_credential
    (TokenStore.mk { locked := false }
      (some { Token := "mock-expired-token-string", ExpiresOn := 1290 })
      (mockTokenSource none none))
    1320 rfl (fun C hC => by cases hC; decide) rfl

/-- Counterexample to C6 as stated: with the clock at 10, an empty store whose
source delivers a credential that expired at 5 returns that credential's token
string with a nil error, and none of the credentials in play (held before the
call, delivered by the source, held after the call) carries that string with an
`ExpiresOn` not before 10. -/
theorem Auth.TokenStore.Token_stale_counterexample :
    ((newTokenStore (mockTokenSource (some { Token := "stale", ExpiresOn := 5 }) none)).Token
        10).map (fun r => (r.1, r.2.token, r.2.source.calls))
      = some (("stale", none), some { Token := "stale", ExpiresOn := 5 }, 1) ∧
    ¬ ∃ c : Auth.Token,
        (some c = (newTokenStore
              (mockTokenSource (some { Token := "stale", ExpiresOn := 5 }) none)).token ∨
          some c = ((mockTokenSource (some { Token := "stale", ExpiresOn := 5 }) none).results
              0).1 ∨
          some c = some { Token := "stale", ExpiresOn := 5 }) ∧
        c.Token = "stale" ∧ ¬ c.ExpiresOn < 10 := by
  refine ⟨by decide, ?_⟩
  rintro ⟨c, hc | hc | hc, -, hexp⟩
  · exact absurd hc (by simp [newTokenStore])
  · simp only [mockTokenSource, Option.some.injEq] at hc
    subst hc
    exact hexp (by decide)
  · simp only [Option.some.injEq] at hc
    subst hc
    exact hexp (by decide)

/-- C6, amended. Whenever `Token()` returns a token string with a nil error, that
string is the `Token` field of the credential held after the call, and this
credential is either the one held before the call, whose `ExpiresOn` is not
before the clock reading (and the source was not invoked), or the credential the
source delivered in this call, invoked once (its `ExpiresOn` is not examined). -/
theorem Auth.TokenStore.Token_success_origin (t t' : TokenStore) (timeNow : Int)
    (s : String) (h : t.Token timeNow = some ((s, none), t')) :
    ∃ c, t'.token = some c ∧ c.Token = s ∧
      ((t.token = some c ∧ ¬ c.ExpiresOn < timeNow ∧
          t'.source.calls = t.source.calls) ∨
       (t.source.results t.source.calls = (some c, none) ∧
          t'.source.calls = t.source.calls + 1)) := by
  rcases Auth.TokenStore.Token_cases t t' timeNow (s, none) h with
    ⟨C, hC, hexp, hret, ht'⟩ | ⟨-, ⟨e, -, hret, -⟩ | ⟨-, hret, -⟩ | ⟨N, hN, hret, ht'⟩⟩
  · simp only [Prod.mk.injEq, and_true] at hret
    subst ht'
    exact ⟨C, hC, hret.symm, Or.inl ⟨hC,
      not_lt.2 ((Auth.Token.isExpired_eq_false C timeNow).1 hexp), rfl⟩⟩
  · simp at hret
  · simp at hret
  · simp only [Prod.mk.injEq, and_true] at hret
    subst ht'
    exact ⟨N, rfl, hret.symm, Or.inr ⟨hN, rfl⟩⟩

/-- Witness for the amended C6, at the input of the counterexample. -/
theorem Auth.TokenStore.Token_success_origin_witness :
    ∃ c, (TokenStore.mk { locked := false } (some { Token := "stale", ExpiresOn := 5 })
          { results := fun _ => (some { Token := "stale", ExpiresOn := 5 }, none),
            calls := 1 }).token = some c ∧
      c.Token = "stale" ∧
      (((newTokenStore (mockTokenSource (some { Token := "stale", ExpiresOn := 5 }) none)).token
            = some c ∧ ¬ c.ExpiresOn < 10 ∧ (1 : Nat) = 0) ∨
       ((mockTokenSource (some { Token := "stale", ExpiresOn := 5 }) none).results 0
            = (some c, none) ∧ (1 : Nat) = 0 + 1)) :=
  Auth.TokenStore.Token_success_origin
    (newTokenStore (mockTokenSource (some { Token := "stale", ExpiresOn := 5 }) none))
    (TokenStore.mk { locked := false } (some { Token := "stale", ExpiresOn := 5 })
      { results := fun _ => (some { Token := "stale", ExpiresOn := 5 }, none), calls := 1 })
    10 "stale" rfl

/-- C8 (idempotence under cache hit). For a store with a free lock that holds an
unexpired credential `C`, two consecutive `Token()` calls at the same clock
reading both return `(C.Token, nil)`, and across both calls the source is invoked
at most once (in fact not at all). -/
theorem Auth.TokenStore.Token_idempotent_hit (t : TokenStore) (timeNow : Int)
    (C : Auth.Token) (hfree : t.lock.locked = false) (hheld : t.token = some C)
    (hexp : C.isExpired timeNow = false) :
    ∃ t₁ t₂, t.Token timeNow = some ((C.Token, none), t₁) ∧
      t₁.Token timeNow = some ((C.Token, none), t₂) ∧
      t₂.source.calls ≤ t.source.calls + 1 ∧ t₂.source.calls = t.source.calls := by
  have h := Auth.TokenStore.Token_of_held t timeNow C hfree hheld hexp
  exact ⟨t, t, h, h, Nat.le_succ _, rfl⟩

/-- Witness for C8: the test store of "returns cached token when not expired". -/
theorem Auth.TokenStore.Token_idempotent_hit_witness :
    ∃ t₁ t₂, (TokenStore.mk { locked := false }
        (some { Token := "mock-unexpired-token-string", ExpiresOn := 1410 })
        (mockTokenSource none none)).Token 1320
          = some (((Auth.Token.mk "mock-unexpired-token-string" 1410).Token, none), t₁) ∧
      t₁.Token 1320
          = some (((Auth.Token.mk "mock-unexpired-token-string" 1410).Token, none), t₂) ∧
      t₂.source.calls ≤ 0 + 1 ∧ t₂.source.calls = 0 :=
  Auth.TokenStore.Token_idempotent_hit
    (TokenStore.mk { locked := false }
      (some { Token := "mock-unexpired-token-string", ExpiresOn := 1410 })
      (mockTokenSource none none))
    1320 { Token := "mock-unexpired-token-string", ExpiresOn := 1410 } rfl rfl (by decide)

/-- C9 (refetch stability, as asserted by `TestTokenCache`). For any store
(credential held or not, expired or not), a clock that stands still and a source
that gives the same answer at every invocation: if a first `Token()` call
returns the token string `s` with a nil error, an immediately following second
call returns `s` with a nil error as well. -/
theorem Auth.TokenStore.Token_refetch_stable (t t₁ : TokenStore) (timeNow : Int)
    (res : Option Auth.Token × error) (s : String)
    (hconst : ∀ n, t.source.results n = res)
    (hfirst : t.Token timeNow = some ((s, none), t₁)) :
    ∃ t₂, t₁.Token timeNow = some ((s, none), t₂) := by
  rcases Auth.TokenStore.Token_cases t t₁ timeNow (s, none) hfirst with
    ⟨C, -, -, hret, ht'⟩ | ⟨-, ⟨e, -, hret, -⟩ | ⟨-, hret, -⟩ | ⟨N, hN, hret, ht'⟩⟩
  · subst ht'
    exact ⟨t₁, hfirst⟩
  · simp at hret
  · simp at hret
  · simp only [Prod.mk.injEq, and_true] at hret
    subst hret ht'
    have hfree : (t.fetched (some N)).lock.locked = false :=
      Auth.TokenStore.Token_lock_free t _ timeNow _ hfirst
    cases hx : N.isExpired timeNow with
    | false =>
      exact ⟨_, Auth.TokenStore.Token_of_held (t.fetched (some N)) timeNow N hfree rfl hx⟩
    | true =>
      have hmiss : ∀ C, (t.fetched (some N)).token = some C → C.isExpired timeNow = true := by
        intro C hC
        simp only [Auth.TokenStore.fetched, Option.some.injEq] at hC
        subst hC
        exact hx
      have hsrc : (t.fetched (some N)).source.results (t.fetched (some N)).source.calls
          = (some N, none) := by
        show t.source.results (t.source.calls + 1) = (some N, none)
        rw [hconst, ← hconst t.source.calls, hN]
      exact ⟨_, Auth.TokenStore.Token_of_miss_fresh (t.fetched (some N)) timeNow N hfree
        hmiss hsrc⟩

/-- Witness for C9: a source that always delivers an already expired credential;
both calls fetch and both return its token string. -/
theorem Auth.TokenStore.Token_refetch_stable_witness :
    ∃ t₂, (TokenStore.mk { locked := false } (some { Token := "stale", ExpiresOn := 5 })
        { results := fun _ => (some { Token := "stale", ExpiresOn := 5 }, none),
          calls := 1 }).Token 10 = some (("stale", none), t₂) :=
  Auth.TokenStore.Token_refetch_stable
    (newTokenStore (mockTokenSource (some { Token := "stale", ExpiresOn := 5 }) none))
    (TokenStore.mk { locked := false } (some { Token := "stale", ExpiresOn := 5 })
      { results := fun _ => (some { Token := "stale", ExpiresOn := 5 }, none), calls := 1 })
    10 (some { Token := "stale", ExpiresOn := 5 }, none) "stale" (fun _ => rfl) rfl

/-- C7 (most-recently-fetched invariant). Every run of `Token()` calls on a store
made by `newTokenStore`, at arbitrary clock readings and with an arbitrary
source, returns from each call; with `k` the number of source invocations made
by the end of the run, the held credential is then `lastFetched … k`: absent
when none of these fetches succeeded, otherwise the credential delivered by the
most recent successful one. If the last call of the run returned a token string
with a nil error, that string is the `Token` of this most recent successful
fetch. (A prefix of a run is a run, so this holds after each call.) -/
theorem Auth.TokenStore.Tokens_hold_most_recent (source : TokenSource) (times : List Int) :
    ∃ rets t' k, (newTokenStore source).Tokens times = some (rets, t') ∧
      rets.length = times.length ∧
      t'.source.calls = source.calls + k ∧
      t'.token = lastFetched source.results source.calls k ∧
      (t'.token = none ↔ ∀ i, i < k → ∀ M, source.results (source.calls + i) ≠ (some M, none)) ∧
      (∀ N, t'.token = some N ↔
        ∃ i, i < k ∧ source.results (source.calls + i) = (some N, none) ∧
          ∀ j, i < j → j < k → ∀ M, source.results (source.calls + j) ≠ (some M, none)) ∧
      ∀ s, rets.getLast? = some (s, none) →
        ∃ N, lastFetched source.results source.calls k = some N ∧ N.Token = s := by
  obtain ⟨rets, t', k, hrun, hlen, -, -, hcalls, htok, hlast⟩ :=
    Auth.TokenStore.Tokens_invariant source times
  refine ⟨rets, t', k, hrun, hlen, hcalls, htok, ?_, ?_, ?_⟩
  · rw [htok]
    exact Auth.lastFetched_eq_none_iff source.results source.calls k
  · intro N
    rw [htok]
    exact Auth.lastFetched_eq_some_iff source.results source.calls k N
  · intro s hs
    rw [← htok]
    exact hlast s hs

/-- C17 (exact failure condition of the cache). A `Token()` call on a store with
a free lock returns, and it returns a non-nil error exactly when no unexpired
credential is held (none held, or the held one is expired) and the source
answers with a non-nil error or with a nil credential; whenever the error is
non-nil the returned token string is empty. (A success is a nil error.) -/
theorem Auth.TokenStore.Token_error_iff (t : TokenStore) (timeNow : Int)
    (hfree : t.lock.locked = false) :
    ∃ ret t', t.Token timeNow = some (ret, t') ∧
      (ret.2 ≠ none ↔
        (t.token = none ∨ ∃ C, t.token = some C ∧ C.isExpired timeNow = true) ∧
        ((t.source.results t.source.calls).2 ≠ none ∨
          (t.source.results t.source.calls).1 = none)) ∧
      (ret.2 ≠ none → ret.1 = "") := by
  obtain ⟨ret, t', hcall⟩ := Auth.TokenStore.Token_isSome t timeNow hfree
  refine ⟨ret, t', hcall, ?_⟩
  have hheld : (∀ C, t.token = some C → C.isExpired timeNow = true) →
      (t.token = none ∨ ∃ C, t.token = some C ∧ C.isExpired timeNow = true) := by
    intro hm
    cases htok : t.token with
    | none => exact Or.inl rfl
    | some C => exact Or.inr ⟨C, rfl, hm C htok⟩
  rcases Auth.TokenStore.Token_cases t t' timeNow ret hcall with
    ⟨C, hC, hexp, hret, -⟩ | ⟨hm, ⟨e, he, hret, -⟩ | ⟨hnil, hret, -⟩ | ⟨N, hN, hret, -⟩⟩
  · subst hret
    refine ⟨⟨fun h => absurd rfl h, ?_⟩, fun h => absurd rfl h⟩
    rintro ⟨hnone | ⟨D, hD, hDexp⟩, -⟩
    · rw [hC] at hnone
      exact absurd hnone (by simp)
    · rw [hC] at hD
      cases hD
      rw [hexp] at hDexp
      exact absurd hDexp (by simp)
  · subst hret
    refine ⟨⟨fun _ => ⟨hheld hm, Or.inl ?_⟩, fun _ => by simp⟩, fun _ => rfl⟩
    rw [he]
    simp
  · subst hret
    refine ⟨⟨fun _ => ⟨hheld hm, Or.inr ?_⟩, fun _ => by simp⟩, fun _ => rfl⟩
    rw [hnil]
  · subst hret
    refine ⟨⟨fun h => absurd rfl h, ?_⟩, fun h => absurd rfl h⟩
    rintro ⟨-, h | h⟩
    · rw [hN] at h
      exact absurd rfl h
    · rw [hN] at h
      exact absurd h (by simp)

/-- Witness for C17: the test store of "returns error when storage returns no
token". -/
theorem Auth.TokenStore.Token_error_iff_witness :
    ∃ ret t', (TokenStore.mk { locked := false }
        (some { Token := "mock-expired-token-string", ExpiresOn := 1290 })
        (mockTokenSource none none)).Token 1320 = some (ret, t') ∧
      (ret.2 ≠ none ↔
        ((some (Auth.Token.mk "mock-expired-token-string" 1290) = none ∨
            ∃ C, some (Auth.Token.mk "mock-expired-token-string" 1290) = some C ∧
              C.isExpired 1320 = true) ∧
          (((mockTokenSource none none).results 0).2 ≠ none ∨
            ((mockTokenSource none none).results 0).1 = none))) ∧
      (ret.2 ≠ none → ret.1 = "") :=
  Auth.TokenStore.Token_error_iff
    (TokenStore.mk { locked := false }
      (some { Token := "mock-expired-token-string", ExpiresOn := 1290 })
      (mockTokenSource none none))
    1320 rfl

/-- C19 (lock release on every exit path). With the lock as a held/free flag that
`Token()` takes on entry: a call entered with the flag free returns, and whenever
a call returns, the flag is free in the store it leaves behind. The four exits
are spelled out: a cache hit, a source error, a nil credential and a successful
refresh each return with the flag free. -/
theorem Auth.TokenStore.Token_releases_lock (t : TokenStore) (timeNow : Int) :
    (t.lock.locked = false → ∃ ret t', t.Token timeNow = some (ret, t')) ∧
    (∀ ret t', t.Token timeNow = some (ret, t') → t'.lock.locked = false) ∧
    (t.lock.locked = false → ∀ C, t.token = some C → C.isExpired timeNow = false →
      ∃ t', t.Token timeNow = some ((C.Token, none), t') ∧ t'.lock.locked = false) ∧
    (t.lock.locked = false → (∀ C, t.token = some C → C.isExpired timeNow = true) →
      ∀ tok e, t.source.results t.source.calls = (tok, some e) →
      ∃ t', t.Token timeNow =
          some (("", some (fmt.Errorf "could not fetch new token: " e)), t') ∧
        t'.lock.locked = false) ∧
    (t.lock.locked = false → (∀ C, t.token = some C → C.isExpired timeNow = true) →
      t.source.results t.source.calls = (none, none) →
      ∃ t', t.Token timeNow =
          some (("", some (errors.New "nil token returned by source")), t') ∧
        t'.lock.locked = false) ∧
    (t.lock.locked = false → (∀ C, t.token = some C → C.isExpired timeNow = true) →
      ∀ N, t.source.results t.source.calls = (some N, none) →
      ∃ t', t.Token timeNow = some ((N.Token, none), t') ∧ t'.lock.locked = false) := by
  refine ⟨fun hfree => Auth.TokenStore.Token_isSome t timeNow hfree,
    fun ret t' h => Auth.TokenStore.Token_lock_free t t' timeNow ret h, ?_, ?_, ?_, ?_⟩
  · intro hfree C hC hexp
    exact ⟨t, Auth.TokenStore.Token_of_held t timeNow C hfree hC hexp, hfree⟩
  · intro hfree hm tok e hsrc
    exact ⟨_, Auth.TokenStore.Token_of_miss_error t timeNow tok e hfree hm hsrc, hfree⟩
  · intro hfree hm hsrc
    exact ⟨_, Auth.TokenStore.Token_of_miss_nil t timeNow hfree hm hsrc, hfree⟩
  · intro hfree hm N hsrc
    exact ⟨_, Auth.TokenStore.Token_of_miss_fresh t timeNow N hfree hm hsrc, hfree⟩

end CacheClaims

section TransportLemmas
open Auth External

theorem External.len_eq_zero_iff (s : String) : len s = 0 ↔ s = "" := by
  obtain ⟨l⟩ := s
  cases l with
  | nil => simp [len, String.utf8ByteSize, String.utf8ByteSize.go]
  | cons c cs =>
    have hc := Char.utf8Size_pos c
    constructor
    · intro h
      simp only [len, String.utf8ByteSize, String.utf8ByteSize.go] at h
      omega
    · intro h
      have := congrArg String.data h
      simp at this

theorem External.len_bne_zero_of_empty (s : String) (h : s = "") :
    (len s != 0) = false := by
  subst h
  rfl

theorem External.Header.lookup_store_self (h : Header) (k : String) (v : List String) :
    (h.store k v).lookup k = some v := by
  simp [Header.store, Header.lookup, List.lookup]

theorem External.Header.lookup_store_of_ne (h : Header) (k k' : String) (v : List String)
    (hne : k' ≠ k) : (h.store k v).lookup k' = h.lookup k' := by
  obtain ⟨l⟩ := h
  have hbeq : (k' == k) = false := by simpa using hne
  simp only [Header.store, Header.lookup, List.lookup, hbeq]
  induction l with
  | nil => rfl
  | cons kv l ih =>
    obtain ⟨k₁, v₁⟩ := kv
    by_cases h1 : k₁ = k
    · subst h1
      have hk : (k' == k₁) = false := hbeq
      simp only [List.filter, bne_self_eq_false, List.lookup, hk]
      exact ih
    · have hk : (k₁ != k) = true := by simpa using h1
      simp only [List.filter, hk, List.lookup]
      rw [ih]

theorem External.lookup_eq_none_of_not_mem (l : List (String × List String)) (k : String)
    (h : k ∉ l.map Prod.fst) : l.lookup k = none := by
  induction l with
  | nil => rfl
  | cons kv l ih =>
    obtain ⟨k₁, v₁⟩ := kv
    simp only [List.map_cons, List.mem_cons, not_or] at h
    have hk : (k == k₁) = false := by simpa using h.1
    simp only [List.lookup, hk]
    exact ih h.2

/-- The copying loop, on map contents: binding every entry of a map with distinct
keys into `acc` gives a map that reads as the copied one on its keys and as
`acc` elsewhere. -/
theorem External.Header.lookup_foldl_store (l : List (String × List String))
    (acc : Header) (k : String) (hnd : (l.map Prod.fst).Nodup) :
    (l.foldl (fun h ks => h.store ks.1 ks.2) acc).lookup k =
      match l.lookup k with
      | some v => some v
      | none => acc.lookup k := by
  induction l generalizing acc with
  | nil => rfl
  | cons kv l ih =>
    obtain ⟨k₁, v₁⟩ := kv
    simp only [List.map_cons, List.nodup_cons] at hnd
    rw [List.foldl_cons, ih (acc.store k₁ v₁) hnd.2]
    by_cases hk : k = k₁
    · subst hk
      rw [External.lookup_eq_none_of_not_mem l k hnd.1]
      simp [List.lookup, External.Header.lookup_store_self]
    · have hbeq : (k == k₁) = false := by simpa using hk
      simp only [List.lookup, hbeq]
      cases l.lookup k with
      | some v => rfl
      | none => exact External.Header.lookup_store_of_ne acc k₁ k v₁ hk

/-- The copying loop, in memory: it only ever replaces the map at address `a`. -/
theorem External.Heap.foldl_write (l : List (String × List String)) (a : Nat) (m : Heap) :
    (l.foldl (fun m ks => m.write a ((m.maps a).store ks.1 ks.2)) m).next = m.next ∧
    (l.foldl (fun m ks => m.write a ((m.maps a).store ks.1 ks.2)) m).maps a =
      l.foldl (fun h ks => h.store ks.1 ks.2) (m.maps a) ∧
    ∀ b, b ≠ a →
      (l.foldl (fun m ks => m.write a ((m.maps a).store ks.1 ks.2)) m).maps b = m.maps b := by
  induction l generalizing m with
  | nil => exact ⟨rfl, rfl, fun _ _ => rfl⟩
  | cons kv l ih =>
    obtain ⟨hn, ha, hb⟩ := ih (m.write a ((m.maps a).store kv.1 kv.2))
    simp only [List.foldl_cons]
    refine ⟨hn, ?_, ?_⟩
    · rw [ha]
      simp [Heap.write]
    · intro b hne
      rw [hb b hne]
      simp [Heap.write, hne]

/-- The branch of `RoundTrip` taken without a nil token source when
`Header.Get` reads no `Authorization` value: the source is invoked once, and its
answer `res` decides how the call goes on. -/
theorem External.externalAuthRoundTripper.RoundTrip_of_no_auth
    (r : externalAuthRoundTripper) (req : Request) (mem : Heap) (source : TokenSource)
    (hnoauth : (mem.maps req.Header).Get "Authorization" = "")
    (hts : r.tokenSource = some source) :
    r.RoundTrip req mem =
      match (source.results source.calls).2 with
      | some err =>
        (Outcome.returned
            (none, some (fmt.Errorf "acquiring a token for authorization header: " err)),
          { r with tokenSource := some source.Token.2 }, mem)
      | none =>
        match (source.results source.calls).1 with
        | none =>
          (Outcome.panicked nilDereference, { r with tokenSource := some source.Token.2 },
            (mem.maps req.Header).entries.foldl
              (fun m ks => m.write mem.next ((m.maps mem.next).store ks.1 ks.2)) mem.make.2)
        | some token =>
          (Outcome.returned
              (r.roundTripper.respond r.roundTripper.received.length
                { req with Header := mem.next }
                ((((mem.maps req.Header).entries.foldl
                    (fun m ks => m.write mem.next ((m.maps mem.next).store ks.1 ks.2))
                    mem.make.2).maps mem.next).Set "Authorization"
                  ("Bearer " ++ token.Token))),
            { tokenSource := some source.Token.2,
              roundTripper :=
                { respond := r.roundTripper.respond,
                  received := r.roundTripper.received ++
                    [({ req with Header := mem.next },
                      (((mem.maps req.Header).entries.foldl
                        (fun m ks => m.write mem.next ((m.maps mem.next).store ks.1 ks.2))
                        mem.make.2).maps mem.next).Set "Authorization"
                      ("Bearer " ++ token.Token))] } },
            ((mem.maps req.Header).entries.foldl
                (fun m ks => m.write mem.next ((m.maps mem.next).store ks.1 ks.2))
                mem.make.2).write mem.next
              ((((mem.maps req.Header).entries.foldl
                  (fun m ks => m.write mem.next ((m.maps mem.next).store ks.1 ks.2))
                  mem.make.2).maps mem.next).Set "Authorization"
                ("Bearer " ++ token.Token))) := by
  unfold externalAuthRoundTripper.RoundTrip
  rw [External.len_bne_zero_of_empty _ hnoauth]
  simp only [Bool.false_eq_true, if_false, hts]
  rcases hres : source.results source.calls with ⟨_ | token, _ | e⟩ <;>
    simp [TokenSource.Token, hres, Heap.make, RoundTripper.RoundTrip, Heap.write]

/-- The memory after the copying loop of `RoundTrip`: one map more, the maps
allocated before are as they were. -/
theorem External.Heap.clone_frame (l : List (String × List String)) (mem : Heap) :
    (l.foldl (fun m ks => m.write mem.next ((m.maps mem.next).store ks.1 ks.2))
        mem.make.2).next = mem.next + 1 ∧
    (l.foldl (fun m ks => m.write mem.next ((m.maps mem.next).store ks.1 ks.2))
        mem.make.2).maps mem.next =
      l.foldl (fun h ks => h.store ks.1 ks.2) { entries := [] } ∧
    ∀ b, b ≠ mem.next →
      (l.foldl (fun m ks => m.write mem.next ((m.maps mem.next).store ks.1 ks.2))
        mem.make.2).maps b = mem.maps b := by
  obtain ⟨hn, ha, hb⟩ := External.Heap.foldl_write l mem.next mem.make.2
  refine ⟨hn, ?_, ?_⟩
  · rw [ha]
    simp [Heap.make]
  · intro b hne
    rw [hb b hne]
    simp [Heap.make, hne]

/-- Frame of `RoundTrip`: whatever branch is taken, the header maps allocated
before the call are as they were after it. -/
theorem External.externalAuthRoundTripper.RoundTrip_frame
    (r : externalAuthRoundTripper) (req : Request) (mem : Heap) (a : Nat)
    (ha : a < mem.next) :
    (r.RoundTrip req mem).2.2.maps a = mem.maps a := by
  have hne : a ≠ mem.next := Nat.ne_of_lt ha
  by_cases hauth : (mem.maps req.Header).Get "Authorization" = ""
  · cases hts : r.tokenSource with
    | none =>
      unfold externalAuthRoundTripper.RoundTrip
      rw [External.len_bne_zero_of_empty _ hauth]
      simp only [Bool.false_eq_true, if_false, hts]
    | some source =>
      rw [External.externalAuthRoundTripper.RoundTrip_of_no_auth r req mem source hauth hts]
      obtain ⟨-, -, hb⟩ := External.Heap.clone_frame (mem.maps req.Header).entries mem
      rcases source.results source.calls with ⟨_ | token, _ | e⟩
      · exact hb a hne
      · rfl
      · show (Heap.write _ mem.next _).maps a = mem.maps a
        simp only [Heap.write, hne, if_false]
        exact hb a hne
      · rfl
  · have hlen : (len ((mem.maps req.Header).Get "Authorization") != 0) = true := by
      simp only [bne_iff_ne, ne_eq, External.len_eq_zero_iff]
      exact hauth
    unfold externalAuthRoundTripper.RoundTrip
    rw [if_pos hlen]

/-- Any call of `RoundTrip` that gets past the `Authorization` check with a token
source invokes that source exactly once. -/
theorem External.externalAuthRoundTripper.RoundTrip_invokes_source
    (r : externalAuthRoundTripper) (req : Request) (mem : Heap) (source : TokenSource)
    (hnoauth : (mem.maps req.Header).Get "Authorization" = "")
    (hts : r.tokenSource = some source) :
    (r.RoundTrip req mem).2.1.tokenSource =
      some { results := source.results, calls := source.calls + 1 } := by
  rw [External.externalAuthRoundTripper.RoundTrip_of_no_auth r req mem source hnoauth hts]
  rcases source.results source.calls with ⟨_ | token, _ | e⟩ <;> rfl

/-- What `Header.Get` reads as empty: an absent key, a key bound to no value, or a
key whose first value is the empty string. -/
theorem External.Header.Get_eq_empty_iff (h : Header) (key : String) :
    h.Get key = "" ↔
      h.lookup key = none ∨ h.lookup key = some [] ∨ ∃ vs, h.lookup key = some ("" :: vs) := by
  unfold Header.Get
  rcases h.lookup key with _ | ⟨_ | ⟨v, vs⟩⟩
  · simp
  · simp
  · constructor
    · intro hv
      exact Or.inr (Or.inr ⟨vs, by simp only at hv; rw [hv]⟩)
    · rintro (h | h | ⟨ws, h⟩)
      · exact absurd h (by simp)
      · exact absurd h (by simp)
      · simp only [Option.some.injEq, List.cons.injEq] at h
        exact h.1

/-- The first branch of `RoundTrip`: with a non-empty `Authorization` reading the
request goes to the wrapped transport as it is. -/
theorem External.externalAuthRoundTripper.RoundTrip_pass_through_aux
    (r : externalAuthRoundTripper) (req : Request) (mem : Heap)
    (hauth : (mem.maps req.Header).Get "Authorization" ≠ "") :
    ∃ r', r.RoundTrip req mem =
        (Outcome.returned (r.roundTripper.RoundTrip req mem).1, r', mem) ∧
      (r.roundTripper.RoundTrip req mem).1 =
        r.roundTripper.respond r.roundTripper.received.length req (mem.maps req.Header) ∧
      r'.roundTripper.received = r.roundTripper.received ++ [(req, mem.maps req.Header)] ∧
      r'.roundTripper.respond = r.roundTripper.respond ∧
      r'.tokenSource = r.tokenSource := by
  have hlen : (len ((mem.maps req.Header).Get "Authorization") != 0) = true := by
    simp only [bne_iff_ne, ne_eq, External.len_eq_zero_iff]
    exact hauth
  refine ⟨{ r with roundTripper := (r.roundTripper.RoundTrip req mem).2 }, ?_, rfl, rfl, rfl,
    rfl⟩
  unfold externalAuthRoundTripper.RoundTrip
  rw [if_pos hlen]

end TransportLemmas

section TransportClaims
open Auth External

/-- C10 (pass-through of pre-authorized requests). When `Header.Get` reads a
non-empty `Authorization` value on the request, `RoundTrip` returns what the
wrapped transport returns for that very request, the wrapped transport has
received exactly one more request, namely this one with its headers as they
were, the token source is untouched (not invoked), and no header map in memory
has changed. -/
theorem External.externalAuthRoundTripper.RoundTrip_pass_through
    (r : externalAuthRoundTripper) (req : Request) (mem : Heap)
    (hauth : (mem.maps req.Header).Get "Authorization" ≠ "") :
    ∃ r', r.RoundTrip req mem =
        (Outcome.returned (r.roundTripper.RoundTrip req mem).1, r', mem) ∧
      (r.roundTripper.RoundTrip req mem).1 =
        r.roundTripper.respond r.roundTripper.received.length req (mem.maps req.Header) ∧
      r'.roundTripper.received = r.roundTripper.received ++ [(req, mem.maps req.Header)] ∧
      r'.roundTripper.respond = r.roundTripper.respond ∧
      r'.tokenSource = r.tokenSource := by
  have hlen : (len ((mem.maps req.Header).Get "Authorization") != 0) = true := by
    simp only [bne_iff_ne, ne_eq, External.len_eq_zero_iff]
    exact hauth
  refine ⟨{ r with roundTripper := (r.roundTripper.RoundTrip req mem).2 }, ?_, rfl, rfl, rfl,
    rfl⟩
  unfold externalAuthRoundTripper.RoundTrip
  rw [if_pos hlen]

/-- Witness for C10: a request carrying `Authorization: Basic abc`, sent through
a round tripper whose token source has never been invoked. -/
theorem External.externalAuthRoundTripper.RoundTrip_pass_through_witness :
    ∃ r', externalAuthRoundTripper.RoundTrip
        { tokenSource := some (mockTokenSource (some { Token := "tok", ExpiresOn := 9 }) none),
          roundTripper :=
            { respond := fun _ _ _ => (some { StatusCode := 200, Body := "ok" }, none),
              received := [] } }
        { Method := "GET", URL := "/api", Host := "h", Body := "", Header := 0 }
        { maps := fun _ => { entries := [("Authorization", ["Basic abc"])] }, next := 1 } =
        (Outcome.returned
          (RoundTripper.RoundTrip
            { respond := fun _ _ _ => (some { StatusCode := 200, Body := "ok" }, none),
              received := [] }
            { Method := "GET", URL := "/api", Host := "h", Body := "", Header := 0 }
            { maps := fun _ => { entries := [("Authorization", ["Basic abc"])] },
              next := 1 }).1,
          r',
          { maps := fun _ => { entries := [("Authorization", ["Basic abc"])] }, next := 1 }) ∧
      (RoundTripper.RoundTrip
          { respond := fun _ _ _ => (some { StatusCode := 200, Body := "ok" }, none),
            received := [] }
          { Method := "GET", URL := "/api", Host := "h", Body := "", Header := 0 }
          { maps := fun _ => { entries := [("Authorization", ["Basic abc"])] },
            next := 1 }).1 = (some { StatusCode := 200, Body := "ok" }, none) ∧
      r'.roundTripper.received =
        [] ++ [(({ Method := "GET", URL := "/api", Host := "h", Body := "", Header := 0 } :
            Request), ({ entries := [("Authorization", ["Basic abc"])] } : Header))] ∧
      r'.roundTripper.respond =
        (fun _ _ _ => (some { StatusCode := 200, Body := "ok" }, none)) ∧
      r'.tokenSource = some (mockTokenSource (some { Token := "tok", ExpiresOn := 9 }) none) :=
  External.externalAuthRoundTripper.RoundTrip_pass_through
    { tokenSource := some (mockTokenSource (some { Token := "tok", ExpiresOn := 9 }) none),
      roundTripper :=
        { respond := fun _ _ _ => (some { StatusCode := 200, Body := "ok" }, none),
          received := [] } }
    { Method := "GET", URL := "/api", Host := "h", Body := "", Header := 0 }
    { maps := fun _ => { entries := [("Authorization", ["Basic abc"])] }, next := 1 }
    (by decide)

/-- Counterexample to C11 as stated: the token source fails with an error whose
message is `plain` and which implements `fmt.Formatter`, rendering as
`formatted` under `%v`. The error `RoundTrip` returns has the message
`acquiring a token for authorization header: formatted`, not the context
followed by the message of the source error. -/
theorem External.externalAuthRoundTripper.RoundTrip_token_failure_counterexample :
    (ErrorValue.mk "plain" "formatted").Error = "plain" ∧
    (exampleHeap.maps (exampleRequest 0).Header).Get "Authorization" = "" ∧
    (externalAuthRoundTripper.RoundTrip
        { tokenSource :=
            some (mockTokenSource none (some { Error := "plain", rendered := "formatted" })),
          roundTripper := exampleTransport }
        (exampleRequest 0) exampleHeap).1 =
      Outcome.returned
        (none, some (errors.New "acquiring a token for authorization header: formatted")) ∧
    (errors.New "acquiring a token for authorization header: formatted").Error ≠
      "acquiring a token for authorization header: " ++
        (ErrorValue.mk "plain" "formatted").Error := by
  refine ⟨rfl, by decide, by decide, by decide⟩

/-- C11, amended (token-acquisition failure stops the request). When `Header.Get`
reads no `Authorization` value and the token source answers with a non-nil error
`e`, `RoundTrip` returns a nil response and an error whose message is exactly
`"acquiring a token for authorization header: "` followed by the `%v` rendering
of `e`, which is the message of `e` whenever `e` renders as its message (it does
not implement `fmt.Formatter`). The wrapped transport is as it was (it has
received nothing), the source has been invoked once, and no header map in memory
has changed. -/
theorem External.externalAuthRoundTripper.RoundTrip_token_failure
    (r : externalAuthRoundTripper) (req : Request) (mem : Heap) (source : TokenSource)
    (tok : Option Auth.Token) (e : ErrorValue)
    (hnoauth : (mem.maps req.Header).Get "Authorization" = "")
    (hts : r.tokenSource = some source)
    (hsrc : source.results source.calls = (tok, some e)) :
    ∃ err r', r.RoundTrip req mem = (Outcome.returned (none, some err), r', mem) ∧
      err.Error = "acquiring a token for authorization header: " ++ e.rendered ∧
      (e.rendered = e.Error →
        err.Error = "acquiring a token for authorization header: " ++ e.Error) ∧
      r'.roundTripper = r.roundTripper ∧
      r'.roundTripper.received = r.roundTripper.received ∧
      r'.tokenSource = some { results := source.results, calls := source.calls + 1 } := by
  rw [External.externalAuthRoundTripper.RoundTrip_of_no_auth r req mem source hnoauth hts,
    hsrc]
  refine ⟨_, _, rfl, rfl, ?_, rfl, rfl, rfl⟩
  intro hplain
  show "acquiring a token for authorization header: " ++ e.rendered = _
  rw [hplain]

/-- Witness for the amended C11: a request without `Authorization` and a source
that fails with `errors.New("token store error")`. -/
theorem External.externalAuthRoundTripper.RoundTrip_token_failure_witness :
    ∃ err r', externalAuthRoundTripper.RoundTrip
        { tokenSource := some (mockTokenSource none (some (errors.New "token store error"))),
          roundTripper := exampleTransport }
        (exampleRequest 0) exampleHeap =
        (Outcome.returned (none, some err), r', exampleHeap) ∧
      err.Error = "acquiring a token for authorization header: " ++
        (errors.New "token store error").rendered ∧
      ((errors.New "token store error").rendered = (errors.New "token store error").Error →
        err.Error = "acquiring a token for authorization header: " ++
          (errors.New "token store error").Error) ∧
      r'.roundTripper = exampleTransport ∧
      r'.roundTripper.received = exampleTransport.received ∧
      r'.tokenSource = some
        { results := (mockTokenSource none (some (errors.New "token store error"))).results,
          calls := (mockTokenSource none (some (errors.New "token store error"))).calls + 1 } :=
  External.externalAuthRoundTripper.RoundTrip_token_failure
    { tokenSource := some (mockTokenSource none (some (errors.New "token store error"))),
      roundTripper := exampleTransport }
    (exampleRequest 0) exampleHeap
    (mockTokenSource none (some (errors.New "token store error")))
    none (errors.New "token store error") (by decide) rfl rfl

/-- C12 (bearer header injection). When `Header.Get` reads no `Authorization`
value and the token source delivers the credential `tok` with a nil error,
`RoundTrip` hands exactly one request to the wrapped transport and returns its
answer. In that request `Authorization` is bound to the single value
`"Bearer " ++ tok.Token`, every other key is bound as in the incoming request
(whose map has pairwise distinct keys), and the fields other than the header
are those of the incoming request. -/
theorem External.externalAuthRoundTripper.RoundTrip_bearer
    (r : externalAuthRoundTripper) (req : Request) (mem : Heap) (source : TokenSource)
    (tok : Auth.Token)
    (hnoauth : (mem.maps req.Header).Get "Authorization" = "")
    (hts : r.tokenSource = some source)
    (hsrc : source.results source.calls = (some tok, none))
    (hkeys : ((mem.maps req.Header).entries.map Prod.fst).Nodup) :
    ∃ req2 hdr2,
      (r.RoundTrip req mem).2.1.roundTripper.received =
        r.roundTripper.received ++ [(req2, hdr2)] ∧
      (r.RoundTrip req mem).2.2.maps req2.Header = hdr2 ∧
      (r.RoundTrip req mem).1 =
        Outcome.returned
          (r.roundTripper.respond r.roundTripper.received.length req2 hdr2) ∧
      hdr2.lookup "Authorization" = some ["Bearer " ++ tok.Token] ∧
      (∀ k, k ≠ "Authorization" → hdr2.lookup k = (mem.maps req.Header).lookup k) ∧
      req2.Method = req.Method ∧ req2.URL = req.URL ∧ req2.Host = req.Host ∧
      req2.Body = req.Body := by
  rw [External.externalAuthRoundTripper.RoundTrip_of_no_auth r req mem source hnoauth hts,
    hsrc]
  obtain ⟨-, ha, -⟩ := External.Heap.clone_frame (mem.maps req.Header).entries mem
  refine ⟨{ req with Header := mem.next }, _, rfl, ?_, rfl, ?_, ?_, rfl, rfl, rfl, rfl⟩
  · simp [Heap.write]
  · exact External.Header.lookup_store_self _ _ _
  · intro k hk
    show (Header.store _ "Authorization" _).lookup k = _
    rw [External.Header.lookup_store_of_ne _ _ _ _ hk, ha,
      External.Header.lookup_foldl_store _ _ _ hkeys]
    show (match (mem.maps req.Header).lookup k with
      | some v => some v
      | none => none) = _
    cases (mem.maps req.Header).lookup k <;> rfl

/-- Witness for C12: the header map at address 0 of the example memory and a
source delivering the token `abc`. -/
theorem External.externalAuthRoundTripper.RoundTrip_bearer_witness :
    ∃ req2 hdr2,
      (externalAuthRoundTripper.RoundTrip
          { tokenSource := some (mockTokenSource (some { Token := "abc", ExpiresOn := 100 }) none),
            roundTripper := exampleTransport }
          (exampleRequest 0) exampleHeap).2.1.roundTripper.received =
        exampleTransport.received ++ [(req2, hdr2)] ∧
      (externalAuthRoundTripper.RoundTrip
          { tokenSource := some (mockTokenSource (some { Token := "abc", ExpiresOn := 100 }) none),
            roundTripper := exampleTransport }
          (exampleRequest 0) exampleHeap).2.2.maps req2.Header = hdr2 ∧
      (externalAuthRoundTripper.RoundTrip
          { tokenSource := some (mockTokenSource (some { Token := "abc", ExpiresOn := 100 }) none),
            roundTripper := exampleTransport }
          (exampleRequest 0) exampleHeap).1 =
        Outcome.returned
          (exampleTransport.respond exampleTransport.received.length req2 hdr2) ∧
      hdr2.lookup "Authorization" = some ["Bearer " ++ (Auth.Token.mk "abc" 100).Token] ∧
      (∀ k, k ≠ "Authorization" →
        hdr2.lookup k = (exampleHeap.maps (exampleRequest 0).Header).lookup k) ∧
      req2.Method = (exampleRequest 0).Method ∧ req2.URL = (exampleRequest 0).URL ∧
      req2.Host = (exampleRequest 0).Host ∧ req2.Body = (exampleRequest 0).Body :=
  External.externalAuthRoundTripper.RoundTrip_bearer
    { tokenSource := some (mockTokenSource (some { Token := "abc", ExpiresOn := 100 }) none),
      roundTripper := exampleTransport }
    (exampleRequest 0) exampleHeap
    (mockTokenSource (some { Token := "abc", ExpiresOn := 100 }) none)
    { Token := "abc", ExpiresOn := 100 } (by decide) rfl rfl (by decide)

/-- C13 (the input request is never mutated). For a request whose header map is
allocated, whatever branch `RoundTrip` takes (pass-through, token source nil,
source error, nil credential, token delivered), the header map of the incoming
request reads after the call as it did before, key by key and value by value; in
particular its `Authorization` binding is neither added nor changed. The same
holds for every header map allocated before the call. -/
theorem External.externalAuthRoundTripper.RoundTrip_leaves_input
    (r : externalAuthRoundTripper) (req : Request) (mem : Heap)
    (hvalid : req.Header < mem.next) :
    (r.RoundTrip req mem).2.2.maps req.Header = mem.maps req.Header ∧
    ((r.RoundTrip req mem).2.2.maps req.Header).lookup "Authorization" =
      (mem.maps req.Header).lookup "Authorization" ∧
    ∀ a, a < mem.next → (r.RoundTrip req mem).2.2.maps a = mem.maps a := by
  have h := External.externalAuthRoundTripper.RoundTrip_frame r req mem req.Header hvalid
  refine ⟨h, ?_, fun a ha => External.externalAuthRoundTripper.RoundTrip_frame r req mem a ha⟩
  rw [h]

/-- Witness for C13: the request on the header map at address 0 of the example
memory, sent with a source that delivers the token `abc`. -/
theorem External.externalAuthRoundTripper.RoundTrip_leaves_input_witness :
    (externalAuthRoundTripper.RoundTrip
        { tokenSource := some (mockTokenSource (some { Token := "abc", ExpiresOn := 100 }) none),
          roundTripper := exampleTransport }
        (exampleRequest 0) exampleHeap).2.2.maps (exampleRequest 0).Header =
      exampleHeap.maps (exampleRequest 0).Header ∧
    ((externalAuthRoundTripper.RoundTrip
        { tokenSource := some (mockTokenSource (some { Token := "abc", ExpiresOn := 100 }) none),
          roundTripper := exampleTransport }
        (exampleRequest 0) exampleHeap).2.2.maps (exampleRequest 0).Header).lookup
        "Authorization" =
      (exampleHeap.maps (exampleRequest 0).Header).lookup "Authorization" ∧
    ∀ a, a < exampleHeap.next →
      (externalAuthRoundTripper.RoundTrip
        { tokenSource := some (mockTokenSource (some { Token := "abc", ExpiresOn := 100 }) none),
          roundTripper := exampleTransport }
        (exampleRequest 0) exampleHeap).2.2.maps a = exampleHeap.maps a :=
  External.externalAuthRoundTripper.RoundTrip_leaves_input
    { tokenSource := some (mockTokenSource (some { Token := "abc", ExpiresOn := 100 }) none),
      roundTripper := exampleTransport }
    (exampleRequest 0) exampleHeap (by decide)

/-- Counterexample to C14 as stated: the incoming request carries the key
`Authorization`, bound to the single empty string; `RoundTrip` hands the wrapped
transport a request in which `Authorization` is bound to `Bearer abc`. -/
theorem External.externalAuthRoundTripper.RoundTrip_override_counterexample :
    (exampleHeap.maps (exampleRequest 1).Header).lookup "Authorization" = some [""] ∧
    (externalAuthRoundTripper.RoundTrip
        { tokenSource := some (mockTokenSource (some { Token := "abc", ExpiresOn := 100 }) none),
          roundTripper := exampleTransport }
        (exampleRequest 1) exampleHeap).2.1.roundTripper.received =
      [(exampleRequest 2,
        { entries := [("Authorization", ["Bearer abc"]), ("Accept", ["*/*"])] })] ∧
    ¬ ((Header.mk [("Authorization", ["Bearer abc"]), ("Accept", ["*/*"])]).lookup
          "Authorization" ≠
        (exampleHeap.maps (exampleRequest 1).Header).lookup "Authorization" →
      (exampleHeap.maps (exampleRequest 1).Header).lookup "Authorization" = none) := by
  refine ⟨by decide, by decide, ?_⟩
  intro h
  exact absurd (h (by decide)) (by decide)

/-- C14, amended. If the request that `RoundTrip` hands to the wrapped transport
binds `Authorization` differently from the incoming request, then `Header.Get`
read the incoming `Authorization` as empty: the key was absent, or bound to no
value, or bound to a sequence whose first value is the empty string. An incoming
`Authorization` whose first value is non-empty, alone or followed by further
values, is never overridden: the wrapped transport receives the incoming request
with its header map as it was. -/
theorem External.externalAuthRoundTripper.RoundTrip_sets_only_when_empty
    (r : externalAuthRoundTripper) (req : Request) (mem : Heap) :
    (∀ (req2 : Request) (hdr2 : Header),
      (r.RoundTrip req mem).2.1.roundTripper.received =
        r.roundTripper.received ++ [(req2, hdr2)] →
      hdr2.lookup "Authorization" ≠ (mem.maps req.Header).lookup "Authorization" →
      ((mem.maps req.Header).lookup "Authorization" = none ∨
        (mem.maps req.Header).lookup "Authorization" = some [] ∨
        ∃ vs, (mem.maps req.Header).lookup "Authorization" = some ("" :: vs))) ∧
    (∀ (v : String) (vs : List String),
      (mem.maps req.Header).lookup "Authorization" = some (v :: vs) → v ≠ "" →
      (r.RoundTrip req mem).2.1.roundTripper.received =
        r.roundTripper.received ++ [(req, mem.maps req.Header)]) := by
  constructor
  · intro req2 hdr2 hsent hdiff
    rw [← External.Header.Get_eq_empty_iff]
    by_contra hauth
    obtain ⟨r', hrt, -, hrec, -, -⟩ :=
      External.externalAuthRoundTripper.RoundTrip_pass_through_aux r req mem hauth
    rw [hrt] at hsent
    simp only at hsent
    rw [hrec] at hsent
    have hpair := List.append_cancel_left hsent
    simp only [List.cons.injEq, Prod.mk.injEq, and_true] at hpair
    exact hdiff (by rw [← hpair.2])
  · intro v vs hlk hv
    have hauth : (mem.maps req.Header).Get "Authorization" ≠ "" := by
      unfold Header.Get
      rw [hlk]
      exact hv
    obtain ⟨r', hrt, -, hrec, -, -⟩ :=
      External.externalAuthRoundTripper.RoundTrip_pass_through_aux r req mem hauth
    rw [hrt]
    exact hrec

/-- Counterexample to C15 as stated: with the clock frozen at 10 and a source
that delivers a credential expiring at 100, two consecutive `RoundTrip` calls on
a request without `Authorization` leave the source invoked twice, not at most
once. -/
theorem External.externalAuthRoundTripper.RoundTrip_cache_counterexample :
    (10 : Int) < (Auth.Token.mk "abc" 100).ExpiresOn ∧
    (exampleHeap.maps (exampleRequest 0).Header).lookup "Authorization" = none ∧
    (mockTokenSource (some { Token := "abc", ExpiresOn := 100 }) none).calls = 0 ∧
    ((externalAuthRoundTripper.RoundTrip
        { tokenSource := some (mockTokenSource (some { Token := "abc", ExpiresOn := 100 }) none),
          roundTripper := exampleTransport }
        (exampleRequest 0) exampleHeap).2.1.RoundTrip (exampleRequest 0)
      (externalAuthRoundTripper.RoundTrip
        { tokenSource := some (mockTokenSource (some { Token := "abc", ExpiresOn := 100 }) none),
          roundTripper := exampleTransport }
        (exampleRequest 0) exampleHeap).2.2).2.1.tokenSource.map (fun src => src.calls)
      = some 2 ∧
    ¬ (2 ≤ 0 + 1) := by
  refine ⟨by decide, by decide, rfl, by decide, by decide⟩

/-- C15, amended. `RoundTrip` invokes its token source directly, once per request
that reads no `Authorization` value: no `TokenStore` stands between the round
tripper and the source, and `RoundTrip` never reads the clock. For two
consecutive calls through the same round tripper on such requests (whose header
maps were allocated before the first call), whatever the source delivers and
whenever that expires, the source has been invoked once after the first call
and twice after the second. -/
theorem External.externalAuthRoundTripper.RoundTrip_twice_fetches_twice
    (r : externalAuthRoundTripper) (req₁ req₂ : Request) (mem : Heap) (source : TokenSource)
    (hts : r.tokenSource = some source)
    (h₁ : (mem.maps req₁.Header).Get "Authorization" = "")
    (h₂ : (mem.maps req₂.Header).Get "Authorization" = "")
    (hvalid : req₂.Header < mem.next) :
    (r.RoundTrip req₁ mem).2.1.tokenSource =
      some { results := source.results, calls := source.calls + 1 } ∧
    ((r.RoundTrip req₁ mem).2.1.RoundTrip req₂ (r.RoundTrip req₁ mem).2.2).2.1.tokenSource =
      some { results := source.results, calls := source.calls + 2 } := by
  have hfirst := External.externalAuthRoundTripper.RoundTrip_invokes_source r req₁ mem source
    h₁ hts
  have hmem : (r.RoundTrip req₁ mem).2.2.maps req₂.Header = mem.maps req₂.Header :=
    External.externalAuthRoundTripper.RoundTrip_frame r req₁ mem req₂.Header hvalid
  refine ⟨hfirst, ?_⟩
  exact External.externalAuthRoundTripper.RoundTrip_invokes_source
    (r.RoundTrip req₁ mem).2.1 req₂ (r.RoundTrip req₁ mem).2.2
    { results := source.results, calls := source.calls + 1 } (by rw [hmem]; exact h₂) hfirst

/-- Witness for the amended C15, at the input of the counterexample. -/
theorem External.externalAuthRoundTripper.RoundTrip_twice_fetches_twice_witness :
    (externalAuthRoundTripper.RoundTrip
        { tokenSource := some (mockTokenSource (some { Token := "abc", ExpiresOn := 100 }) none),
          roundTripper := exampleTransport }
        (exampleRequest 0) exampleHeap).2.1.tokenSource =
      some { results := (mockTokenSource (some { Token := "abc", ExpiresOn := 100 }) none).results,
             calls := (mockTokenSource (some { Token := "abc", ExpiresOn := 100 }) none).calls
               + 1 } ∧
    ((externalAuthRoundTripper.RoundTrip
        { tokenSource := some (mockTokenSource (some { Token := "abc", ExpiresOn := 100 }) none),
          roundTripper := exampleTransport }
        (exampleRequest 0) exampleHeap).2.1.RoundTrip (exampleRequest 0)
      (externalAuthRoundTripper.RoundTrip
        { tokenSource := some (mockTokenSource (some { Token := "abc", ExpiresOn := 100 }) none),
          roundTripper := exampleTransport }
        (exampleRequest 0) exampleHeap).2.2).2.1.tokenSource =
      some { results := (mockTokenSource (some { Token := "abc", ExpiresOn := 100 }) none).results,
             calls := (mockTokenSource (some { Token := "abc", ExpiresOn := 100 }) none).calls
               + 2 } :=
  External.externalAuthRoundTripper.RoundTrip_twice_fetches_twice
    { tokenSource := some (mockTokenSource (some { Token := "abc", ExpiresOn := 100 }) none),
      roundTripper := exampleTransport }
    (exampleRequest 0) (exampleRequest 0) exampleHeap
    (mockTokenSource (some { Token := "abc", ExpiresOn := 100 }) none)
    rfl (by decide) (by decide) (by decide)

/-- C18, the code at the failing input: a request without `Authorization` and a
token source that answers with a nil credential and a nil error. `RoundTrip`
does not return: it panics on the nil pointer when reading `token.Token`, after
the source was invoked once and without the wrapped transport having received
anything. The cache, on the same source answer, returns the error
`errors.New("nil token returned by source")`. -/
theorem External.externalAuthRoundTripper.RoundTrip_nil_credential_panics :
    (mockTokenSource none none).results 0 = (none, none) ∧
    (exampleHeap.maps (exampleRequest 0).Header).Get "Authorization" = "" ∧
    (externalAuthRoundTripper.RoundTrip
        { tokenSource := some (mockTokenSource none none), roundTripper := exampleTransport }
        (exampleRequest 0) exampleHeap).1 = Outcome.panicked nilDereference ∧
    (externalAuthRoundTripper.RoundTrip
        { tokenSource := some (mockTokenSource none none), roundTripper := exampleTransport }
        (exampleRequest 0) exampleHeap).2.1.roundTripper.received = [] ∧
    (externalAuthRoundTripper.RoundTrip
        { tokenSource := some (mockTokenSource none none), roundTripper := exampleTransport }
        (exampleRequest 0) exampleHeap).2.1.tokenSource.map (fun src => src.calls) = some 1 ∧
    ((newTokenStore (mockTokenSource none none)).Token 10).map (fun out => out.1) =
      some ("", some (errors.New "nil token returned by source")) := by
  refine ⟨rfl, by decide, by decide, by decide, by decide, by decide⟩

end TransportClaims
